import Mathlib

/-!
Shallow embedding of `src/main.py` (an SSH failed-login statistics pipeline)
and verification of its specification.

The embedding models:
* the two failure-line regular expressions in `PATTERNS` (src/main.py lines 12-15),
* `get_known_ips` (lines 27-37), parameterised by the outcome of the external
  `last -i` invocation,
* `compute_stats` (lines 40-76), parameterised by the log source (the lines the
  file iterator yielded, plus whether iteration ended in an I/O exception) and by
  the allowlist.

Machine strings are modelled as Lean `String`/`List Char`; Python `Counter`
objects as association lists in insertion order; Python sets as duplicate-free
lists (membership is all that is ever used).
-/

namespace AuthStats

/-- Python regex `\w` on ASCII input: a letter, a digit, or an underscore. -/
def isWordChar (c : Char) : Bool := c.isAlphanum || c == '_'

/-- Match a literal character sequence at the head of `cs`; return the rest. -/
def stripLit : List Char → List Char → Option (List Char)
  | [], cs => some cs
  | _ :: _, [] => none
  | l :: ls, c :: cs => if c == l then stripLit ls cs else none

/-- Greedy run of characters satisfying `p` (regex `p+`-style): run and rest. -/
def grabRun (p : Char → Bool) (cs : List Char) : List Char × List Char :=
  (cs.takeWhile p, cs.dropWhile p)

/-- Regex `\d+\.\d+\.\d+\.\d+` anchored at the head of `cs`: the matched text.
Greedy digit runs followed by a mandatory dot cannot backtrack (a dot is not a
digit), so maximal-run matching is exact. -/
def matchIpv4 (cs : List Char) : Option (List Char) :=
  let (a, r1) := grabRun Char.isDigit cs
  if a.isEmpty then none else
  match stripLit ['.'] r1 with
  | none => none
  | some r2 =>
    let (b, r3) := grabRun Char.isDigit r2
    if b.isEmpty then none else
    match stripLit ['.'] r3 with
    | none => none
    | some r4 =>
      let (c, r5) := grabRun Char.isDigit r4
      if c.isEmpty then none else
      match stripLit ['.'] r5 with
      | none => none
      | some r6 =>
        let (d, _) := grabRun Char.isDigit r6
        if d.isEmpty then none else
        some (a ++ '.' :: (b ++ '.' :: (c ++ '.' :: d)))

/-- First pattern of `PATTERNS` (src/main.py line 13), anchored at the head:
regex `Failed password for (?P<user>\w+) from (?P<ip>\d+\.\d+\.\d+\.\d+)(?: port \d+)?`.
The optional port group captures nothing, so it is dropped. A greedy `\w+`
followed by a space cannot backtrack, so maximal-run matching is exact. -/
def matchFailedAt (cs : List Char) : Option (String × String) :=
  match stripLit "Failed password for ".data cs with
  | none => none
  | some r1 =>
    let (u, r2) := grabRun isWordChar r1
    if u.isEmpty then none else
    match stripLit " from ".data r2 with
    | none => none
    | some r3 =>
      match matchIpv4 r3 with
      | none => none
      | some ip => some (String.mk u, String.mk ip)

/-- Second pattern of `PATTERNS` (src/main.py line 14), anchored at the head:
regex `Invalid user (?P<user>\w+) from (?P<ip>\d+\.\d+\.\d+\.\d+)`. -/
def matchInvalidAt (cs : List Char) : Option (String × String) :=
  match stripLit "Invalid user ".data cs with
  | none => none
  | some r1 =>
    let (u, r2) := grabRun isWordChar r1
    if u.isEmpty then none else
    match stripLit " from ".data r2 with
    | none => none
    | some r3 =>
      match matchIpv4 r3 with
      | none => none
      | some ip => some (String.mk u, String.mk ip)

/-- Python `pattern.search`: try the anchored matcher at every position from the
left; the leftmost successful position wins. -/
def reSearch (m : List Char → Option α) : List Char → Option α
  | [] => m []
  | c :: cs =>
    match m (c :: cs) with
    | some r => some r
    | none => reSearch m (cs)

/-- The `PATTERNS` list (src/main.py lines 12-15), as search functions over a
line, in source order. -/
def PATTERNS : List (List Char → Option (String × String)) :=
  [reSearch matchFailedAt, reSearch matchInvalidAt]

/-- Python `str.split()` with no arguments: maximal runs of non-whitespace. -/
def pySplitAux : List Char → List Char → List String
  | [], [] => []
  | [], acc => [String.mk acc.reverse]
  | c :: cs, acc =>
    if c.isWhitespace then
      if acc.isEmpty then pySplitAux cs []
      else String.mk acc.reverse :: pySplitAux cs []
    else pySplitAux cs (c :: acc)

/-- Python `line.split()` (src/main.py lines 34 and 50). -/
def pySplit (s : String) : List String := pySplitAux s.data []

/-- Python `s.split(sep)` for a single-character separator. -/
def splitCharAux (sep : Char) : List Char → List Char → List String
  | [], acc => [String.mk acc.reverse]
  | c :: cs, acc =>
    if c == sep then String.mk acc.reverse :: splitCharAux sep cs []
    else splitCharAux sep cs (c :: acc)

/-- Split a string on every occurrence of one character (Python `s.split(sep)`). -/
def splitChar (sep : Char) (s : String) : List String := splitCharAux sep s.data []

/-- Month abbreviations recognised by strptime directive for the abbreviated
month name in the C locale; the match is case-insensitive. -/
def monthNum (s : String) : Option Nat :=
  match String.mk (s.data.map Char.toLower) with
  | "jan" => some 1 | "feb" => some 2 | "mar" => some 3 | "apr" => some 4
  | "may" => some 5 | "jun" => some 6 | "jul" => some 7 | "aug" => some 8
  | "sep" => some 9 | "oct" => some 10 | "nov" => some 11 | "dec" => some 12
  | _ => none

/-- A numeric strptime token: one or two digit characters, as the day/hour/
minute/second directives accept (range checks are applied by the caller). -/
def tokNat (cs : List Char) : Option Nat :=
  if (cs.length == 1 || cs.length == 2) && cs.all Char.isDigit then
    some (cs.foldl (fun a c => 10 * a + (c.toNat - 48)) 0)
  else none

/-- Days per month in year 1900 (strptime defaults the year to 1900 when the
format carries no year directive; 1900 is not a leap year). -/
def daysInMonth : Nat → Nat
  | 1 => 31 | 2 => 28 | 3 => 31 | 4 => 30 | 5 => 31 | 6 => 30
  | 7 => 31 | 8 => 31 | 9 => 30 | 10 => 31 | 11 => 30 | 12 => 31
  | _ => 0

/-- Two-digit zero-padded decimal rendering, as strftime emits. -/
def pad2 (n : Nat) : String := if n < 10 then "0" ++ toString n else toString n

/-- Model of src/main.py lines 54-57: `datetime.strptime(' '.join(parts[:3]),
'%b %d %H:%M:%S')` followed by `dt.strftime('%Y-%m-%d %H:00')`. Returns `none`
exactly when strptime (or the datetime constructor) raises `ValueError`: bad
month name, day out of range for the month in 1900, hour above 23, minute above
59, or second above 59 (the second directive admits 60 and 61 textually but the
datetime constructor then raises, which the caller treats the same way). The
strftime output carries the defaulted year 1900. -/
def hourLabelOf (parts : List String) : Option String :=
  match parts with
  | [mtok, dtok, ttok] =>
    match monthNum mtok with
    | none => none
    | some m =>
      match tokNat dtok.data with
      | none => none
      | some d =>
        if d < 1 || daysInMonth m < d then none else
        match splitChar ':' ttok with
        | [hh, mm, ss] =>
          match tokNat hh.data, tokNat mm.data, tokNat ss.data with
          | some hv, some mv, some sv =>
            if 23 < hv || 59 < mv || 59 < sv then none else
            some ("1900-" ++ pad2 m ++ "-" ++ pad2 d ++ " " ++ pad2 hv ++ ":00")
          | _, _, _ => none
        | _ => none
  | _ => none

/-- The three `Counter` objects of `compute_stats` (src/main.py lines 42-44),
each embedded as an association list in insertion (first-seen) order. -/
structure Counters where
  users : List (String × Nat)
  ips : List (String × Nat)
  hours : List (String × Nat)
deriving DecidableEq, Repr

/-- The counters before any line is folded. -/
def Counters.empty : Counters := ⟨[], [], []⟩

/-- Python `counter[k] += 1` on a dict-backed counter: bump an existing key in
place, or append a brand-new key with count 1 (insertion order preserved). -/
def bump : List (String × Nat) → String → List (String × Nat)
  | [], k => [(k, 1)]
  | (k', v) :: rest, k =>
    if k' = k then (k', v + 1) :: rest else (k', v) :: bump rest k

/-- Body of the per-line loop of `compute_stats` (src/main.py lines 48-68):
token count guard, timestamp extraction, then every pattern in `PATTERNS` is
searched in order (the loop has no break) and each match whose address is not
allowlisted increments all three counters. -/
def processLine (known_ips : List String) (c : Counters) (line : String) : Counters :=
  let parts := pySplit line
  if parts.length < 3 then c
  else
    match hourLabelOf (parts.take 3) with
    | none => c
    | some hour_label =>
      PATTERNS.foldl (fun acc pat =>
        match pat line.data with
        | some (user, ip) =>
          if ip ∈ known_ips then acc
          else ⟨bump acc.users user, bump acc.ips ip, bump acc.hours hour_label⟩
        | none => acc) c

/-- Comparator of `Counter.most_common`: descending by count (ties are
equivalent, and the stable sort keeps them in insertion order). -/
def countGE (a b : String × Nat) : Prop := b.2 ≤ a.2

instance : DecidableRel countGE := fun a b => inferInstanceAs (Decidable (b.2 ≤ a.2))

instance : IsTotal (String × Nat) countGE := ⟨fun a b => (Nat.le_total a.2 b.2).symm⟩

instance : IsTrans (String × Nat) countGE :=
  ⟨fun _ _ _ h1 h2 => Nat.le_trans h2 h1⟩

/-- Python `Counter.most_common(n)` (src/main.py lines 73-74): documented as
`sorted(items, key=count, reverse=True)[:n]`, a stable sort, so ties keep
insertion (first-seen) order. A stable sort by a total preorder is unique, so
it is embedded as the stable `insertionSort`. -/
def mostCommon (n : Nat) (c : List (String × Nat)) : List (String × Nat) :=
  (c.insertionSort countGE).take n

/-- Strict lexicographic order on character lists by code point: exactly how
Python compares two strings. -/
def lexLt : List Char → List Char → Prop
  | [], [] => False
  | [], _ :: _ => True
  | _ :: _, [] => False
  | a :: as, b :: bs => a.toNat < b.toNat ∨ (a = b ∧ lexLt as bs)

def decLexLt : ∀ x y : List Char, Decidable (lexLt x y)
  | [], [] => isFalse id
  | [], _ :: _ => isTrue trivial
  | _ :: _, [] => isFalse id
  | _ :: as, _ :: bs =>
    have : Decidable (lexLt as bs) := decLexLt as bs
    inferInstanceAs (Decidable (_ ∨ _ ∧ _))

instance : DecidableRel lexLt := decLexLt

/-- Python string comparison `a < b` (code-point lexicographic). -/
def strLt (a b : String) : Prop := lexLt a.data b.data

instance : DecidableRel strLt := fun a b => inferInstanceAs (Decidable (lexLt a.data b.data))

theorem lexLt_trans : ∀ x y z : List Char, lexLt x y → lexLt y z → lexLt x z := by
  intro x
  induction x with
  | nil =>
    intro y z h1 h2
    cases y with
    | nil => simp [lexLt] at h1
    | cons b bs =>
      cases z with
      | nil => simp [lexLt] at h2
      | cons c cs => simp [lexLt]
  | cons a as ih =>
    intro y z h1 h2
    cases y with
    | nil => simp [lexLt] at h1
    | cons b bs =>
      cases z with
      | nil => simp [lexLt] at h2
      | cons c cs =>
        simp only [lexLt] at h1 h2 ⊢
        rcases h1 with h1 | ⟨e1, t1⟩
        · rcases h2 with h2 | ⟨e2, t2⟩
          · exact Or.inl (Nat.lt_trans h1 h2)
          · subst e2; exact Or.inl h1
        · subst e1
          rcases h2 with h2 | ⟨e2, t2⟩
          · exact Or.inl h2
          · exact Or.inr ⟨e2, ih bs cs t1 t2⟩

theorem lexLt_trichotomy : ∀ x y : List Char, lexLt x y ∨ x = y ∨ lexLt y x := by
  intro x
  induction x with
  | nil =>
    intro y
    cases y with
    | nil => exact Or.inr (Or.inl rfl)
    | cons b bs => exact Or.inl (by simp [lexLt])
  | cons a as ih =>
    intro y
    cases y with
    | nil => exact Or.inr (Or.inr (by simp [lexLt]))
    | cons b bs =>
      rcases Nat.lt_trichotomy a.toNat b.toNat with h | h | h
      · exact Or.inl (Or.inl h)
      · have hab : a = b := by
          have := congrArg Char.ofNat h
          simpa using this
        subst hab
        rcases ih bs with h2 | h2 | h2
        · exact Or.inl (Or.inr ⟨rfl, h2⟩)
        · exact Or.inr (Or.inl (by rw [h2]))
        · exact Or.inr (Or.inr (Or.inr ⟨rfl, h2⟩))
      · exact Or.inr (Or.inr (Or.inl h))

/-- Python tuple comparison on `(label, count)` pairs, as used by
`sorted(hourly_counts.items())` (src/main.py line 75): lexicographic, label
first. -/
def pairLex (a b : String × Nat) : Prop := strLt a.1 b.1 ∨ (a.1 = b.1 ∧ a.2 ≤ b.2)

instance : DecidableRel pairLex :=
  fun _ _ => inferInstanceAs (Decidable (_ ∨ _ ∧ _))

instance : IsTotal (String × Nat) pairLex := by
  constructor
  intro a b
  rcases lexLt_trichotomy a.1.data b.1.data with h | h | h
  · exact Or.inl (Or.inl h)
  · have e : a.1 = b.1 := String.ext h
    rcases Nat.le_total a.2 b.2 with h2 | h2
    · exact Or.inl (Or.inr ⟨e, h2⟩)
    · exact Or.inr (Or.inr ⟨e.symm, h2⟩)
  · exact Or.inr (Or.inl h)

instance : IsTrans (String × Nat) pairLex := by
  constructor
  rintro a b c (h1 | ⟨e1, n1⟩) (h2 | ⟨e2, n2⟩)
  · exact Or.inl (lexLt_trans _ _ _ h1 h2)
  · exact Or.inl (e2 ▸ h1)
  · exact Or.inl (e1 ▸ h2)
  · exact Or.inr ⟨e1.trans e2, Nat.le_trans n1 n2⟩

/-- The dictionary returned by `compute_stats` (src/main.py lines 72-76). -/
structure Snapshot where
  top_users : List (String × Nat)
  top_ips : List (String × Nat)
  hourly : List (String × Nat)
deriving DecidableEq, Repr

/-- The log source as `compute_stats` observes it: the lines the file iterator
yielded before completing or failing, and whether an I/O exception ended the
iteration (missing file: no lines and `failed = true`; failure mid-read: a
proper prefix of the file's lines and `failed = true`). -/
structure LogSource where
  lines : List String
  failed : Bool
deriving DecidableEq, Repr

/-- Model of `compute_stats` (src/main.py lines 40-76), parameterised by the log
source and by the already-resolved allowlist. The `except Exception: pass`
around the read loop swallows any I/O failure and execution falls through to
the return statement with whatever the counters hold at that point. -/
def compute_stats (src : LogSource) (known_ips : List String) : Snapshot :=
  let folded := src.lines.foldl (processLine known_ips) Counters.empty
  let c := if src.failed then folded else folded
  { top_users := mostCommon 10 c.users
    top_ips := mostCommon 10 c.ips
    hourly := c.hours.insertionSort pairLex }

/-- Python `re.match(r"\d+\.\d+\.\d+\.\d+", s)` (src/main.py line 35): anchored
at the start of the string only; a prefix match succeeds. -/
def ipMatchAtStart (s : String) : Bool := (matchIpv4 s.data).isSome

/-- Model of `get_known_ips` (src/main.py lines 27-37), parameterised by the
outcome of `subprocess.check_output(['last', '-i'], ...)`: `Except.error` when
the command is missing, errors, or exits non-zero (each raises, and the
`except` returns the empty set), `Except.ok out` with the command's text
otherwise. The Python set is embedded as a duplicate-free list. -/
def get_known_ips (lastOutput : Except Unit String) : List String :=
  match lastOutput with
  | .error _ => []
  | .ok out =>
    (splitChar '\n' out).foldl (fun ips line =>
      match pySplit line with
      | _ :: _ :: p2 :: _ =>
        if ipMatchAtStart p2 && !(ips.contains p2) then ips ++ [p2] else ips
      | _ => ips) []

/-! ### Event-level reformulation of the fold (used to state and prove claims) -/

/-- The `(user, ip)` captures of every pattern that matches the line, in
pattern order (the loop at src/main.py lines 60-68 visits exactly these). -/
def eventsOfLine (line : String) : List (String × String) :=
  PATTERNS.filterMap (fun pat => pat line.data)

/-- The `(user, ip, hour)` events one line contributes before allowlist
filtering: empty when the token-count guard or the timestamp parse fails. -/
def lineEvents (line : String) : List (String × String × String) :=
  let parts := pySplit line
  if parts.length < 3 then []
  else
    match hourLabelOf (parts.take 3) with
    | none => []
    | some h => (eventsOfLine line).map (fun e => (e.1, e.2, h))

/-- All events of a sequence of lines, in order. -/
def allEvents (lines : List String) : List (String × String × String) :=
  lines.flatMap lineEvents

/-- The events that actually reach the counters: those whose address is not in
the allowlist. -/
def countedEvents (src : LogSource) (known_ips : List String) :
    List (String × String × String) :=
  (allEvents src.lines).filter (fun e => decide (e.2.1 ∉ known_ips))

/-- Fold one event into the three counters (the three increments at
src/main.py lines 66-68). -/
def bumpEvent (c : Counters) (e : String × String × String) : Counters :=
  ⟨bump c.users e.1, bump c.ips e.2.1, bump c.hours e.2.2⟩

/-- Fold a list of keys into one counter. -/
def foldBump (c : List (String × Nat)) (ks : List String) : List (String × Nat) :=
  ks.foldl bump c

/-- Aggregation over a plain event stream with no allowlist: the reference
point the allowlist filtering is compared against. -/
def statsFromEvents (evs : List (String × String × String)) : Snapshot :=
  { top_users := mostCommon 10 (foldBump [] (evs.map (fun e => e.1)))
    top_ips := mostCommon 10 (foldBump [] (evs.map (fun e => e.2.1)))
    hourly := (foldBump [] (evs.map (fun e => e.2.2))).insertionSort pairLex }

/-- The user counter after the fold (intermediate state of `compute_stats`). -/
def usersCounterOf (src : LogSource) (known_ips : List String) : List (String × Nat) :=
  (src.lines.foldl (processLine known_ips) Counters.empty).users

/-- The address counter after the fold. -/
def ipsCounterOf (src : LogSource) (known_ips : List String) : List (String × Nat) :=
  (src.lines.foldl (processLine known_ips) Counters.empty).ips

/-- The hourly counter after the fold. -/
def hoursCounterOf (src : LogSource) (known_ips : List String) : List (String × Nat) :=
  (src.lines.foldl (processLine known_ips) Counters.empty).hours

/-- Total count held by one view. -/
def sumCounts (l : List (String × Nat)) : Nat := (l.map (fun e => e.2)).sum

/-! ### Lemmas about the fold -/

theorem processLine_eq (known : List String) (c : Counters) (line : String) :
    processLine known c line =
      ((lineEvents line).filter (fun e => decide (e.2.1 ∉ known))).foldl bumpEvent c := by
  unfold processLine lineEvents eventsOfLine PATTERNS
  by_cases h3 : (pySplit line).length < 3
  · simp [h3]
  · simp only [h3, if_neg, if_false]
    cases hT : hourLabelOf ((pySplit line).take 3) with
    | none => simp
    | some hl =>
      cases h1 : reSearch matchFailedAt line.data with
      | none =>
        cases h2 : reSearch matchInvalidAt line.data with
        | none => simp [h1, h2]
        | some e2 =>
          by_cases hk2 : e2.2 ∈ known <;>
            simp [h1, h2, hk2, bumpEvent]
      | some e1 =>
        cases h2 : reSearch matchInvalidAt line.data with
        | none =>
          by_cases hk1 : e1.2 ∈ known <;>
            simp [h1, h2, hk1, bumpEvent]
        | some e2 =>
          by_cases hk1 : e1.2 ∈ known <;> by_cases hk2 : e2.2 ∈ known <;>
            simp [h1, h2, hk1, hk2, bumpEvent]

theorem foldLog_eq (known : List String) :
    ∀ (lines : List String) (c : Counters),
      lines.foldl (processLine known) c =
        ((allEvents lines).filter (fun e => decide (e.2.1 ∉ known))).foldl bumpEvent c := by
  intro lines
  induction lines with
  | nil => intro c; simp [allEvents]
  | cons l ls ih =>
    intro c
    rw [List.foldl_cons, processLine_eq, ih]
    simp [allEvents, List.filter_append, List.foldl_append]

theorem foldl_bumpEvent_eq :
    ∀ (evs : List (String × String × String)) (c : Counters),
      evs.foldl bumpEvent c =
        ⟨foldBump c.users (evs.map (fun e => e.1)),
         foldBump c.ips (evs.map (fun e => e.2.1)),
         foldBump c.hours (evs.map (fun e => e.2.2))⟩ := by
  intro evs
  induction evs with
  | nil => intro c; simp [foldBump]
  | cons e evs ih =>
    intro c
    rw [List.foldl_cons, ih]
    simp [foldBump, bumpEvent]

/-- The whole aggregation, rewritten as a pure fold over the filtered event
stream: the allowlisted events are exactly the ones that are dropped. -/
theorem compute_stats_eq (src : LogSource) (known : List String) :
    compute_stats src known = statsFromEvents (countedEvents src known) := by
  unfold compute_stats statsFromEvents countedEvents
  rw [foldLog_eq, foldl_bumpEvent_eq]
  simp [Counters.empty]

theorem usersCounterOf_eq (src : LogSource) (known : List String) :
    usersCounterOf src known = foldBump [] ((countedEvents src known).map (fun e => e.1)) := by
  unfold usersCounterOf countedEvents
  rw [foldLog_eq, foldl_bumpEvent_eq]
  rfl

theorem ipsCounterOf_eq (src : LogSource) (known : List String) :
    ipsCounterOf src known = foldBump [] ((countedEvents src known).map (fun e => e.2.1)) := by
  unfold ipsCounterOf countedEvents
  rw [foldLog_eq, foldl_bumpEvent_eq]
  rfl

theorem hoursCounterOf_eq (src : LogSource) (known : List String) :
    hoursCounterOf src known = foldBump [] ((countedEvents src known).map (fun e => e.2.2)) := by
  unfold hoursCounterOf countedEvents
  rw [foldLog_eq, foldl_bumpEvent_eq]
  rfl

theorem compute_stats_views (src : LogSource) (known : List String) :
    (compute_stats src known).top_users = mostCommon 10 (usersCounterOf src known) ∧
    (compute_stats src known).top_ips = mostCommon 10 (ipsCounterOf src known) ∧
    (compute_stats src known).hourly = (hoursCounterOf src known).insertionSort pairLex := by
  unfold compute_stats usersCounterOf ipsCounterOf hoursCounterOf
  simp

/-! ### Lemmas about one counter -/

theorem sumCounts_bump (c : List (String × Nat)) (k : String) :
    sumCounts (bump c k) = sumCounts c + 1 := by
  induction c with
  | nil => simp [bump, sumCounts]
  | cons e rest ih =>
    rcases e with ⟨k1, v⟩
    by_cases h : k1 = k
    · simp [bump, h, sumCounts]; omega
    · simp only [bump, if_neg h]
      simp [sumCounts] at ih ⊢
      omega

theorem sumCounts_foldBump :
    ∀ (ks : List String) (c : List (String × Nat)),
      sumCounts (foldBump c ks) = sumCounts c + ks.length := by
  intro ks
  induction ks with
  | nil => intro c; simp [foldBump]
  | cons k ks ih =>
    intro c
    have h : foldBump c (k :: ks) = foldBump (bump c k) ks := rfl
    rw [h, ih, sumCounts_bump]
    simp; omega

theorem pos_bump (c : List (String × Nat)) (k : String)
    (h : ∀ e ∈ c, 1 ≤ e.2) : ∀ e ∈ bump c k, 1 ≤ e.2 := by
  induction c with
  | nil => simp [bump]
  | cons e0 rest ih =>
    rcases e0 with ⟨k1, v⟩
    by_cases hk : k1 = k
    · simp only [bump, if_pos hk]
      intro e he
      rcases List.mem_cons.1 he with rfl | he
      · simp
      · exact h e (List.mem_cons_of_mem _ he)
    · simp only [bump, if_neg hk]
      intro e he
      rcases List.mem_cons.1 he with rfl | he
      · exact h _ (List.mem_cons_self _ _)
      · exact ih (fun x hx => h x (List.mem_cons_of_mem _ hx)) e he

theorem pos_foldBump :
    ∀ (ks : List String) (c : List (String × Nat)),
      (∀ e ∈ c, 1 ≤ e.2) → ∀ e ∈ foldBump c ks, 1 ≤ e.2 := by
  intro ks
  induction ks with
  | nil => intro c h; exact h
  | cons k ks ih =>
    intro c h
    exact ih (bump c k) (pos_bump c k h)

theorem keys_bump (c : List (String × Nat)) (k : String) :
    (bump c k).map Prod.fst =
      if k ∈ c.map Prod.fst then c.map Prod.fst else c.map Prod.fst ++ [k] := by
  induction c with
  | nil => simp [bump]
  | cons e rest ih =>
    rcases e with ⟨k1, v⟩
    by_cases h : k1 = k
    · subst h; simp [bump]
    · simp only [bump, if_neg h, List.map_cons, ih]
      by_cases hm : k ∈ rest.map Prod.fst
      · simp [hm, Ne.symm h]
      · simp [hm, Ne.symm h]

theorem nodup_keys_bump (c : List (String × Nat)) (k : String)
    (h : (c.map Prod.fst).Nodup) : ((bump c k).map Prod.fst).Nodup := by
  rw [keys_bump]
  by_cases hm : k ∈ c.map Prod.fst
  · simpa [hm] using h
  · simp [hm, List.nodup_append, h]

theorem nodup_keys_foldBump :
    ∀ (ks : List String) (c : List (String × Nat)),
      (c.map Prod.fst).Nodup → ((foldBump c ks).map Prod.fst).Nodup := by
  intro ks
  induction ks with
  | nil => intro c h; exact h
  | cons k ks ih => intro c h; exact ih (bump c k) (nodup_keys_bump c k h)

theorem mem_keys_bump (c : List (String × Nat)) (k : String) (x : String)
    (hx : x ∈ (bump c k).map Prod.fst) : x ∈ c.map Prod.fst ∨ x = k := by
  rw [keys_bump] at hx
  by_cases hm : k ∈ c.map Prod.fst
  · rw [if_pos hm] at hx; exact Or.inl hx
  · rw [if_neg hm] at hx
    rcases List.mem_append.1 hx with h | h
    · exact Or.inl h
    · exact Or.inr (List.mem_singleton.1 h)

theorem mem_keys_foldBump :
    ∀ (ks : List String) (c : List (String × Nat)) (x : String),
      x ∈ (foldBump c ks).map Prod.fst → x ∈ c.map Prod.fst ∨ x ∈ ks := by
  intro ks
  induction ks with
  | nil => intro c x hx; exact Or.inl hx
  | cons k ks ih =>
    intro c x hx
    rcases ih (bump c k) x hx with h | h
    · rcases mem_keys_bump c k x h with h2 | h2
      · exact Or.inl h2
      · exact Or.inr (h2 ▸ List.mem_cons_self _ _)
    · exact Or.inr (List.mem_cons_of_mem _ h)

/-! ### The top-10 views -/

open List in
theorem pair_sublist_take {α : Type} {a b : α} :
    ∀ (l : List α) (n : Nat), [a, b] <+ l → b ∈ l.take n → l.Nodup →
      [a, b] <+ l.take n := by
  intro l
  induction l with
  | nil => intro n h hb _; simp at hb
  | cons x xs ih =>
    intro n h hb hnd
    cases n with
    | zero => simp at hb
    | succ m =>
      rw [List.take_succ_cons] at hb ⊢
      cases h with
      | cons _ h1 =>
        have hbxs : b ∈ xs := h1.subset (by simp)
        have hb2 : b ∈ xs.take m := by
          rcases List.mem_cons.1 hb with e | hmem
          · exact absurd (e ▸ hbxs) (List.nodup_cons.1 hnd).1
          · exact hmem
        exact (ih m h1 hb2 (List.nodup_cons.1 hnd).2).cons _
      | cons₂ _ h1 =>
        have hbxs : b ∈ xs := List.singleton_sublist.1 h1
        have hb2 : b ∈ xs.take m := by
          rcases List.mem_cons.1 hb with e | hmem
          · exact absurd (e ▸ hbxs) (List.nodup_cons.1 hnd).1
          · exact hmem
        exact (List.singleton_sublist.2 hb2).cons₂ _

/-- What the spec demands of a truncated top view `v` produced from the
counter `c`: descending counts, entries drawn from the counter, exactly the
ten largest (any dropped entry counts no more than any kept one), and ties
kept in first-seen order. -/
def TopViewSpec (c v : List (String × Nat)) : Prop :=
  v.Pairwise (fun a b => b.2 ≤ a.2) ∧
  (∀ e ∈ v, e ∈ c) ∧
  v.length = min 10 c.length ∧
  (∀ kv ∈ c, kv ∉ v → ∀ e ∈ v, kv.2 ≤ e.2) ∧
  (∀ a b : String × Nat, List.Sublist [a, b] c → a.2 = b.2 → b ∈ v →
    List.Sublist [a, b] v)

open List in
theorem mostCommon_topViewSpec (c : List (String × Nat))
    (hnd : (c.map Prod.fst).Nodup) : TopViewSpec c (mostCommon 10 c) := by
  have hndc : c.Nodup := hnd.of_map
  have hperm : c.insertionSort countGE ~ c := List.perm_insertionSort countGE c
  have hnds : (c.insertionSort countGE).Nodup := hperm.nodup_iff.2 hndc
  have hsorted : (c.insertionSort countGE).Pairwise countGE :=
    List.sorted_insertionSort countGE c
  refine ⟨?_, ?_, ?_, ?_, ?_⟩
  · exact ((hsorted.sublist (List.take_sublist _ _)).imp (fun h => h))
  · intro e he
    exact hperm.mem_iff.1 (List.take_subset _ _ he)
  · unfold mostCommon
    rw [List.length_take, List.length_insertionSort]
  · intro kv hkv hnv e he
    have hkvs : kv ∈ c.insertionSort countGE := hperm.mem_iff.2 hkv
    have hsplit := List.take_append_drop 10 (c.insertionSort countGE)
    have hkvd : kv ∈ (c.insertionSort countGE).drop 10 := by
      rcases List.mem_append.1 (by rw [hsplit]; exact hkvs) with h | h
      · exact absurd h hnv
      · exact h
    have hpw : ((c.insertionSort countGE).take 10 ++
        (c.insertionSort countGE).drop 10).Pairwise countGE := by
      rw [hsplit]; exact hsorted
    exact (List.pairwise_append.1 hpw).2.2 e he kv hkvd
  · intro a b hab heq hbv
    have hle : countGE a b := le_of_eq heq.symm
    have hs : [a, b] <+ c.insertionSort countGE :=
      List.pair_sublist_insertionSort hle hab
    exact pair_sublist_take _ 10 hs hbv hnds

/-! ### The hourly view -/

theorem hourly_sorted (c : List (String × Nat)) :
    (c.insertionSort pairLex).Pairwise
      (fun a b => strLt a.1 b.1 ∨ a.1 = b.1) := by
  refine (List.sorted_insertionSort pairLex c).imp ?_
  rintro a b (h | ⟨e, _⟩)
  · exact Or.inl h
  · exact Or.inr e

/-! ### Sums of counts -/

theorem sumCounts_perm {l1 l2 : List (String × Nat)} (h : List.Perm l1 l2) :
    sumCounts l1 = sumCounts l2 := by
  unfold sumCounts
  exact (h.map (fun e => e.2)).sum_eq

theorem sumCounts_take_le (l : List (String × Nat)) (n : Nat) :
    sumCounts (l.take n) ≤ sumCounts l := by
  conv_rhs => rw [← List.take_append_drop n l]
  unfold sumCounts
  rw [List.map_append, List.sum_append]
  exact Nat.le_add_right _ _

/-! ### Helper facts shared by several claims -/

theorem mem_of_mem_mostCommon {c : List (String × Nat)} {e : String × Nat}
    (he : e ∈ mostCommon 10 c) : e ∈ c :=
  (List.perm_insertionSort countGE c).mem_iff.1 (List.take_subset _ _ he)

theorem pos_counter (ks : List String) : ∀ e ∈ foldBump [] ks, 1 ≤ e.2 :=
  pos_foldBump ks [] (by simp)

theorem nodup_keys_counter (ks : List String) :
    ((foldBump [] ks).map Prod.fst).Nodup :=
  nodup_keys_foldBump ks [] (by simp)

theorem monthNum_bounds (s : String) (m : Nat) (h : monthNum s = some m) :
    1 ≤ m ∧ m ≤ 12 := by
  unfold monthNum at h
  split at h <;> simp_all <;> omega

theorem daysInMonth_le (m : Nat) : daysInMonth m ≤ 31 := by
  unfold daysInMonth
  split <;> omega

/-! ### The claims -/

/-- C1, as stated, is false: the pattern loop at src/main.py lines 60-68 has no
break, so a line matching both the Failed-password pattern and the Invalid-user
pattern increments each counter once per matching pattern. Counterexample: a
single line matching both patterns leaves the hourly counter at 2, and both
captured users in the user view, not one increment per line. -/
theorem claim_C1_counterexample :
    (compute_stats ⟨["Jun 22 08:15:20 sshd: Failed password for root from 10.0.0.5 port 22 Invalid user admin from 10.0.0.6"], false⟩ []).hourly
      = [("1900-06-22 08:00", 2)] ∧
    (compute_stats ⟨["Jun 22 08:15:20 sshd: Failed password for root from 10.0.0.5 port 22 Invalid user admin from 10.0.0.6"], false⟩ []).top_users
      = [("root", 1), ("admin", 1)] := by
  constructor <;> decide

/-- C1 amended: the patterns are applied in their fixed order, but with no
early exit: every pattern that matches the line contributes one increment to
each counter (so a line matching both patterns counts twice), each match still
subject to its own allowlist test. -/
theorem claim_C1_both_patterns_count (line : String) (known : List String)
    (c : Counters) (hl u1 ip1 u2 ip2 : String)
    (h3 : ¬ (pySplit line).length < 3)
    (hT : hourLabelOf ((pySplit line).take 3) = some hl)
    (h1 : reSearch matchFailedAt line.data = some (u1, ip1))
    (h2 : reSearch matchInvalidAt line.data = some (u2, ip2))
    (k1 : ip1 ∉ known) (k2 : ip2 ∉ known) :
    processLine known c line =
      bumpEvent (bumpEvent c (u1, ip1, hl)) (u2, ip2, hl) := by
  unfold processLine PATTERNS
  simp [h3, hT, h1, h2, k1, k2, bumpEvent]

theorem claim_C1_witness :
    processLine [] Counters.empty
        "Jun 22 08:15:20 sshd: Failed password for root from 10.0.0.5 port 22 Invalid user admin from 10.0.0.6" =
      bumpEvent (bumpEvent Counters.empty ("root", "10.0.0.5", "1900-06-22 08:00"))
        ("admin", "10.0.0.6", "1900-06-22 08:00") :=
  claim_C1_both_patterns_count
    "Jun 22 08:15:20 sshd: Failed password for root from 10.0.0.5 port 22 Invalid user admin from 10.0.0.6"
    [] Counters.empty "1900-06-22 08:00" "root" "10.0.0.5" "admin" "10.0.0.6"
    (by decide) (by decide) (by decide) (by decide) (by decide) (by decide)

/-- C2, as stated, is false: `datetime.strptime` with the year-free format
`%b %d %H:%M:%S` defaults the year to 1900, and `compute_stats` consults no
clock at all, so the hour label carries the constant year 1900, never the
current year. Counterexample: the spec's own example line is bucketed under
"1900-06-22 08:00", not under the current year. -/
theorem claim_C2_counterexample :
    (compute_stats ⟨["Jun 22 08:15:20 host sshd: Failed password for root from 10.0.0.5 port 2222"], false⟩ []).hourly
      = [("1900-06-22 08:00", 1)] := by decide

/-- C2 amended: for every successfully parsed timestamp the hour label is
`1900-MM-DD HH:00` — the fixed strptime default year 1900 with the line's own
zero-padded month, day and hour — independent of any clock. -/
theorem claim_C2_year_is_1900 (parts : List String) (lbl : String)
    (h : hourLabelOf parts = some lbl) :
    ∃ m d hv, 1 ≤ m ∧ m ≤ 12 ∧ 1 ≤ d ∧ d ≤ 31 ∧ hv ≤ 23 ∧
      lbl = "1900-" ++ pad2 m ++ "-" ++ pad2 d ++ " " ++ pad2 hv ++ ":00" := by
  unfold hourLabelOf at h
  repeat' split at h
  all_goals simp_all
  rename_i ptail mtok dtok ttok mo m hmon dd d hday tl hh mm ss o1 o2 o3 hv mv sv hguard1 hsplit hhv hmv hsv hguard2
  obtain ⟨hb1, hb2⟩ := monthNum_bounds _ _ hmon
  exact ⟨m, hb1, hb2, d, by omega, Nat.le_trans hguard1.2 (daysInMonth_le m), hv, hguard2.1.1, h.symm⟩

theorem claim_C2_witness :
    ∃ m d hv, 1 ≤ m ∧ m ≤ 12 ∧ 1 ≤ d ∧ d ≤ 31 ∧ hv ≤ 23 ∧
      "1900-06-22 08:00" = "1900-" ++ pad2 m ++ "-" ++ pad2 d ++ " " ++ pad2 hv ++ ":00" :=
  claim_C2_year_is_1900 ["Jun", "22", "08:15:20"] "1900-06-22 08:00" (by decide)

/-- C3, as stated, is false: the counters live outside the `try` block, and the
`except Exception: pass` swallows the failure, so an I/O failure occurring
after some lines were read returns the partial fold of that prefix, not
all-empty views. Counterexample: a source whose read fails after one
qualifying line still yields a non-empty user view. -/
theorem claim_C3_counterexample :
    (LogSource.mk ["Jun 22 08:15:20 host sshd: Failed password for root from 10.0.0.5 port 2222"] true).failed = true ∧
    (compute_stats ⟨["Jun 22 08:15:20 host sshd: Failed password for root from 10.0.0.5 port 2222"], true⟩ []).top_users
      = [("root", 1)] := by
  constructor
  · rfl
  · decide

/-- C3 amended: the snapshot never depends on whether the read ended in an I/O
failure — it is always the full fold of the lines actually read before the
failure. All three views are empty only when the failure precedes the first
line (e.g. the file is missing); a mid-read failure returns the partial fold
of the prefix read so far. -/
theorem claim_C3_failure_keeps_prefix (lines known : List String) :
    compute_stats ⟨lines, true⟩ known = compute_stats ⟨lines, false⟩ known ∧
    compute_stats ⟨[], true⟩ known = ⟨[], [], []⟩ :=
  ⟨rfl, rfl⟩

/-- C7: the aggregation is a pure function of the log content and the
allowlist: two runs over equal inputs produce snapshots that agree on all
three views (the embedding consults no clock and no hidden state; the only
free inputs of `compute_stats` are the log source and the allowlist). -/
theorem claim_C7_deterministic (src1 src2 : LogSource) (k1 k2 : List String)
    (hsrc : src1 = src2) (hk : k1 = k2) :
    (compute_stats src1 k1).top_users = (compute_stats src2 k2).top_users ∧
    (compute_stats src1 k1).top_ips = (compute_stats src2 k2).top_ips ∧
    (compute_stats src1 k1).hourly = (compute_stats src2 k2).hourly := by
  subst hsrc; subst hk
  exact ⟨rfl, rfl, rfl⟩

theorem claim_C7_witness :
    (compute_stats ⟨["Jun 22 08:15:20 host sshd: Failed password for root from 10.0.0.5 port 2222"], false⟩ []).top_users
      = (compute_stats ⟨["Jun 22 08:15:20 host sshd: Failed password for root from 10.0.0.5 port 2222"], false⟩ []).top_users ∧
    (compute_stats ⟨["Jun 22 08:15:20 host sshd: Failed password for root from 10.0.0.5 port 2222"], false⟩ []).top_ips
      = (compute_stats ⟨["Jun 22 08:15:20 host sshd: Failed password for root from 10.0.0.5 port 2222"], false⟩ []).top_ips ∧
    (compute_stats ⟨["Jun 22 08:15:20 host sshd: Failed password for root from 10.0.0.5 port 2222"], false⟩ []).hourly
      = (compute_stats ⟨["Jun 22 08:15:20 host sshd: Failed password for root from 10.0.0.5 port 2222"], false⟩ []).hourly :=
  claim_C7_deterministic _ _ _ _ rfl rfl

/-- C8: when the external session-history command is unavailable (missing,
erroring, or exiting non-zero — every such case raises, and the `except`
catches it), `get_known_ips` returns the empty set, so aggregation proceeds
with no allowlist. -/
theorem claim_C8_resolver_fails_open :
    get_known_ips (Except.error ()) = [] := rfl

/-- C4: allowlisted addresses contribute nothing. The whole aggregation equals
the aggregation (with no allowlist) of the event stream from which every event
with an allowlisted address has been removed, and every entry of the
top-addresses view has an address outside the allowlist. -/
theorem claim_C4_allowlist_excluded (src : LogSource) (known : List String) :
    compute_stats src known = statsFromEvents (countedEvents src known) ∧
    ∀ e ∈ (compute_stats src known).top_ips, e.1 ∉ known := by
  refine ⟨compute_stats_eq src known, ?_⟩
  intro e he
  have h2 : (compute_stats src known).top_ips = mostCommon 10 (ipsCounterOf src known) :=
    (compute_stats_views src known).2.1
  rw [h2] at he
  have h3 : e ∈ ipsCounterOf src known := mem_of_mem_mostCommon he
  rw [ipsCounterOf_eq] at h3
  have h4 := mem_keys_foldBump _ [] e.1 (List.mem_map_of_mem _ h3)
  rcases h4 with h4 | h4
  · simp at h4
  · rcases List.mem_map.1 h4 with ⟨ev, hev, he1⟩
    have h5 := List.of_mem_filter hev
    rw [← he1]
    simpa using h5

theorem claim_C4_witness :
    ((("10.0.0.6" : String), 1).1 ∉ (["10.0.0.5"] : List String)) :=
  (claim_C4_allowlist_excluded
      ⟨["Jun 22 08:15:20 sshd: Failed password for root from 10.0.0.5 port 22 Invalid user admin from 10.0.0.6"], false⟩
      ["10.0.0.5"]).2 ("10.0.0.6", 1) (by decide)

/-- C5, as stated, is false: a line can match BOTH failure patterns (each with
a valid capture), and then the one-line log yields counts of 2, not 1.
Counterexample: the line below matches the Failed-password pattern (premise of
the claim), has a valid leading timestamp, its address is not allowlisted, yet
the user view is `[(guest, 2)]`, not `[(guest, 1)]`. -/
theorem claim_C5_counterexample :
    (reSearch matchFailedAt
      "Jun 22 08:15:20 Failed password for guest from 1.2.3.4 Invalid user guest from 1.2.3.4".data).isSome = true ∧
    hourLabelOf ((pySplit "Jun 22 08:15:20 Failed password for guest from 1.2.3.4 Invalid user guest from 1.2.3.4").take 3)
      = some "1900-06-22 08:00" ∧
    (compute_stats ⟨["Jun 22 08:15:20 Failed password for guest from 1.2.3.4 Invalid user guest from 1.2.3.4"], false⟩ []).top_users
      = [("guest", 2)] := by
  refine ⟨by decide, by decide, by decide⟩

/-- C5 amended: for a line whose extraction yields exactly ONE event (it
matches exactly one pattern occurrence in total), with a valid leading
timestamp and a non-allowlisted address, the one-line log yields the three
singleton views with count 1. -/
theorem claim_C5_single_line (line : String) (allow : List String)
    (u ip hl : String)
    (hE : lineEvents line = [(u, ip, hl)])
    (hip : ip ∉ allow) :
    compute_stats ⟨[line], false⟩ allow = ⟨[(u, 1)], [(ip, 1)], [(hl, 1)]⟩ := by
  rw [compute_stats_eq]
  have hc : countedEvents ⟨[line], false⟩ allow = [(u, ip, hl)] := by
    unfold countedEvents allEvents
    simp [hE, hip]
  rw [hc]
  unfold statsFromEvents mostCommon foldBump
  simp [bump, List.insertionSort]

theorem claim_C5_witness :
    compute_stats ⟨["Jun 22 08:15:20 host sshd: Failed password for root from 10.0.0.5 port 2222"], false⟩ ["9.9.9.9"]
      = ⟨[("root", 1)], [("10.0.0.5", 1)], [("1900-06-22 08:00", 1)]⟩ :=
  claim_C5_single_line
    "Jun 22 08:15:20 host sshd: Failed password for root from 10.0.0.5 port 2222"
    ["9.9.9.9"] "root" "10.0.0.5" "1900-06-22 08:00" (by decide) (by decide)

/-- C6: the user and address views are truncated to at most 10 entries; the
hourly view is never truncated (it is a permutation of the full hourly
counter) and is sorted ascending by the hour label. -/
theorem claim_C6_view_shapes (src : LogSource) (known : List String) :
    (compute_stats src known).top_users.length ≤ 10 ∧
    (compute_stats src known).top_ips.length ≤ 10 ∧
    List.Perm (compute_stats src known).hourly (hoursCounterOf src known) ∧
    (compute_stats src known).hourly.Pairwise
      (fun a b => strLt a.1 b.1 ∨ a.1 = b.1) := by
  obtain ⟨hu, hi, hh⟩ := compute_stats_views src known
  refine ⟨?_, ?_, ?_, ?_⟩
  · rw [hu]; exact List.length_take_le _ _
  · rw [hi]; exact List.length_take_le _ _
  · rw [hh]; exact List.perm_insertionSort pairLex _
  · rw [hh]; exact hourly_sorted _

/-- C9: each top view satisfies the top-10 specification with respect to its
counter: counts descending, entries drawn from the counter, exactly the ten
largest (no dropped entry outcounts a kept one), and equal counts ordered by
first appearance during the fold. -/
theorem claim_C9_top10_selection (src : LogSource) (known : List String) :
    TopViewSpec (usersCounterOf src known) (compute_stats src known).top_users ∧
    TopViewSpec (ipsCounterOf src known) (compute_stats src known).top_ips := by
  obtain ⟨hu, hi, _⟩ := compute_stats_views src known
  constructor
  · rw [hu, usersCounterOf_eq]
    exact mostCommon_topViewSpec _ (nodup_keys_counter _)
  · rw [hi, ipsCounterOf_eq]
    exact mostCommon_topViewSpec _ (nodup_keys_counter _)

theorem claim_C9_witness :
    ((("u11" : String), 1) : String × Nat).2 ≤ ((("u01" : String), 1) : String × Nat).2 :=
  ((claim_C9_top10_selection
      ⟨["Jun 2 0:0:0 Failed password for u01 from 1.1.1.1",
        "Jun 2 0:0:0 Failed password for u02 from 1.1.1.1",
        "Jun 2 0:0:0 Failed password for u03 from 1.1.1.1",
        "Jun 2 0:0:0 Failed password for u04 from 1.1.1.1",
        "Jun 2 0:0:0 Failed password for u05 from 1.1.1.1",
        "Jun 2 0:0:0 Failed password for u06 from 1.1.1.1",
        "Jun 2 0:0:0 Failed password for u07 from 1.1.1.1",
        "Jun 2 0:0:0 Failed password for u08 from 1.1.1.1",
        "Jun 2 0:0:0 Failed password for u09 from 1.1.1.1",
        "Jun 2 0:0:0 Failed password for u10 from 1.1.1.1",
        "Jun 2 0:0:0 Failed password for u11 from 1.1.1.1"], false⟩ []).1).2.2.2.1
    ("u11", 1) (by decide) (by decide) ("u01", 1) (by decide)

/-- C10: cross-view consistency. The hourly view (untruncated) sums to the
total number of counted events; every listed count in any view is at least 1;
and each truncated top view sums to at most the hourly total. -/
theorem claim_C10_cross_view (src : LogSource) (known : List String) :
    sumCounts (compute_stats src known).hourly = (countedEvents src known).length ∧
    (∀ e ∈ (compute_stats src known).top_users, 1 ≤ e.2) ∧
    (∀ e ∈ (compute_stats src known).top_ips, 1 ≤ e.2) ∧
    (∀ e ∈ (compute_stats src known).hourly, 1 ≤ e.2) ∧
    sumCounts (compute_stats src known).top_users
      ≤ sumCounts (compute_stats src known).hourly ∧
    sumCounts (compute_stats src known).top_ips
      ≤ sumCounts (compute_stats src known).hourly := by
  obtain ⟨hu, hi, hh⟩ := compute_stats_views src known
  have husum : sumCounts (usersCounterOf src known) = (countedEvents src known).length := by
    rw [usersCounterOf_eq, sumCounts_foldBump]
    simp [sumCounts]
  have hisum : sumCounts (ipsCounterOf src known) = (countedEvents src known).length := by
    rw [ipsCounterOf_eq, sumCounts_foldBump]
    simp [sumCounts]
  have hhsum : sumCounts (compute_stats src known).hourly
      = (countedEvents src known).length := by
    rw [hh, sumCounts_perm (List.perm_insertionSort pairLex _), hoursCounterOf_eq,
      sumCounts_foldBump]
    simp [sumCounts]
  refine ⟨hhsum, ?_, ?_, ?_, ?_, ?_⟩
  · intro e he
    rw [hu] at he
    have h3 : e ∈ usersCounterOf src known := mem_of_mem_mostCommon he
    rw [usersCounterOf_eq] at h3
    exact pos_counter _ e h3
  · intro e he
    rw [hi] at he
    have h3 : e ∈ ipsCounterOf src known := mem_of_mem_mostCommon he
    rw [ipsCounterOf_eq] at h3
    exact pos_counter _ e h3
  · intro e he
    rw [hh] at he
    have h3 : e ∈ hoursCounterOf src known :=
      (List.perm_insertionSort pairLex _).mem_iff.1 he
    rw [hoursCounterOf_eq] at h3
    exact pos_counter _ e h3
  · rw [hu, hhsum]
    calc sumCounts (mostCommon 10 (usersCounterOf src known))
        ≤ sumCounts ((usersCounterOf src known).insertionSort countGE) :=
          sumCounts_take_le _ _
      _ = sumCounts (usersCounterOf src known) :=
          sumCounts_perm (List.perm_insertionSort countGE _)
      _ = (countedEvents src known).length := husum
  · rw [hi, hhsum]
    calc sumCounts (mostCommon 10 (ipsCounterOf src known))
        ≤ sumCounts ((ipsCounterOf src known).insertionSort countGE) :=
          sumCounts_take_le _ _
      _ = sumCounts (ipsCounterOf src known) :=
          sumCounts_perm (List.perm_insertionSort countGE _)
      _ = (countedEvents src known).length := hisum

theorem claim_C10_witness :
    1 ≤ ((("root" : String), 1) : String × Nat).2 :=
  (claim_C10_cross_view
      ⟨["Jun 22 08:15:20 host sshd: Failed password for root from 10.0.0.5 port 2222"], false⟩
      []).2.1 ("root", 1) (by decide)

end AuthStats
